import Mathlib

/-!
Verification of the `halfsy_backend` storefront backend (`src/main.py`).

The program is a FastAPI application over MongoDB with four read endpoints
(`/api/products/top-deals`, `/api/products`, `/api/brands`, and the root) and
one write endpoint (`/api/contact`).  This file gives a shallow embedding of
the handlers and of the document-store operations they perform, and proves the
spec claims about them.

Modelling conventions:
* A MongoDB document is an association list of field name to BSON-ish value
  (`BVal`: null, integer, or string — the only value shapes the code touches).
* Cursors and aggregation stages get pure list semantics: `find(query)` is
  `List.filter`, `.limit(n)` / `$limit` is `List.take`, `$skip` is `List.drop`,
  the projection `{"_id": 0}` removes the `"_id"` entry, and `$sort` /
  Python `list.sort` are `List.insertionSort` (a stable sort — Python's sort
  is stable, and for MongoDB's `$sort`, whose tie order is unspecified, any
  sort respecting the key is a faithful refinement).
* Python exceptions are modelled with `Except` where the code catches them and
  with the `Outcome.unhandled` constructor where it does not; FastAPI turns an
  unhandled exception into an HTTP 500 response, which `Outcome.statusOf`
  reflects.
* Machine integers are `Int` (Python ints are unbounded, so no wrap-around).
-/

/-- BSON-style field values.  The code only ever reads strings
(`brand_name`, `disc_pct`, `product_link`, `_id`) and numbers (`discount`,
`brand_priority`), plus `null` for explicitly-null fields. -/
inductive BVal where
  | null
  | int (i : Int)
  | str (s : String)
deriving DecidableEq

/-- A MongoDB document: an association list of field name to value. -/
abbrev Doc := List (String × BVal)

/-- Field lookup in a document (first binding wins, as in a MongoDB document
or a Python dict): models both `doc[k]` access and `doc.get(k)`. -/
def fieldVal (d : Doc) (k : String) : Option BVal :=
  (d.find? (fun kv => kv.1 == k)).map (fun kv => kv.2)

/-- Python truthiness of a field value: `None`, `""` and `0` are falsy. -/
def BVal.truthy : BVal → Bool
  | .null => false
  | .int i => i != 0
  | .str s => s != ""

/-- Python truthiness of an optional string parameter (`if brand:` etc.):
`None` and `""` are falsy. -/
def truthyOptStr : Option String → Bool
  | none => false
  | some s => s != ""

/-- The projection `{"_id": 0}` used by every read path: drop the internal id. -/
def stripId (d : Doc) : Doc :=
  d.filter (fun kv => kv.1 != "_id")

/-- `$addFields` semantics on one document: replace the value of an existing
field in place, otherwise append the new field at the end. -/
def setField (d : Doc) (k : String) (v : BVal) : Doc :=
  if d.any (fun kv => kv.1 == k) then
    d.map (fun kv => if kv.1 == k then (k, v) else kv)
  else
    d ++ [(k, v)]

/-- Outcome of one HTTP request, as the framework sees it: a successful
payload, an explicit `HTTPException(code, detail)`, or an exception the
handler never caught. -/
inductive Outcome (α : Type) where
  | success (val : α)
  | httpError (code : Nat) (detail : String)
  | unhandled (exn : String)
deriving DecidableEq

/-- HTTP status of an outcome.  FastAPI maps an uncaught exception to a
500 Internal Server Error response. -/
def Outcome.statusOf {α : Type} : Outcome α → Nat
  | .success _ => 200
  | .httpError code _ => code
  | .unhandled _ => 500

/-- Python `s.replace(c, "")` for a single-character pattern: remove every
occurrence of the character. -/
def removeAll (c : Char) (s : String) : String :=
  String.mk (s.data.filter (fun a => a != c))

/-- Python `s.isdigit()` restricted to ASCII content: nonempty and all digits.
(Python also accepts some non-ASCII digit codepoints; those are outside the
data this service sees and are not modelled.) -/
def isDigits (s : String) : Bool :=
  !s.data.isEmpty && s.data.all (fun c => c.isDigit)

/-- Value of a nonempty ASCII digit string, as Python `int(s)` would parse it. -/
def digitsToNat (s : String) : Nat :=
  s.data.foldl (fun n c => 10 * n + (c.toNat - '0'.toNat)) 0

/-- Python `int(s)` on a stripped decimal string: optional sign followed by
digits; `none` models a `ValueError`. -/
def pyToInt (s : String) : Option Int :=
  match s.data with
  | '-' :: rest =>
    if !rest.isEmpty && rest.all (fun c => c.isDigit) then
      some (-(digitsToNat (String.mk rest) : Int))
    else none
  | '+' :: rest =>
    if !rest.isEmpty && rest.all (fun c => c.isDigit) then
      some ((digitsToNat (String.mk rest) : Int))
    else none
  | l =>
    if !l.isEmpty && l.all (fun c => c.isDigit) then
      some ((digitsToNat s : Int))
    else none

/-- Python `math.ceil(a / b)` for integers `a`, `b` with `b ≠ 0` (exact
arithmetic; the float detour of the source cannot lose precision at the
magnitudes involved). -/
def pyCeil (a b : Int) : Int :=
  -((-a).fdiv b)

/-! ## Top deals (`GET /api/products/top-deals`, src/main.py lines 66-120) -/

/-- Match predicate of the top-deals discount filter.  The Python dict literal
`{"disc_pct": {"$exists": True, "$ne": None, "$ne": ""}}` repeats the key
`"$ne"`, and the second occurrence wins, so the query actually sent is
`$exists: true` together with `$ne: ""` only: a document with `disc_pct: null`
passes the filter. -/
def discFilterMatches (d : Doc) : Bool :=
  match fieldVal d "disc_pct" with
  | none => false
  | some v => v != BVal.str ""

/-- The three query shapes `get_top_deals` sends to the products collection. -/
inductive TopQuery where
  | discounted
  | linkNotIn (ids : List BVal)
  | all
deriving DecidableEq

/-- Match semantics of a `TopQuery` against one document.  For
`{"product_link": {"$nin": ids}}`, MongoDB also matches documents without the
field (the `ids` the handler builds never contain null). -/
def TopQuery.matches : TopQuery → Doc → Bool
  | .discounted, d => discFilterMatches d
  | .linkNotIn ids, d =>
    match fieldVal d "product_link" with
    | none => true
    | some v => !(ids.contains v)
  | .all, _ => true

/-- The products collection as `get_top_deals` uses it: each
`find(query, {"_id": 0}).limit(n)` call either returns documents or raises
(pymongo network/server errors), which the handler's `try` blocks catch. -/
structure Store where
  find : TopQuery → Nat → Except String (List Doc)

/-- A healthy store over a fixed document list: `find` filters in collection
order, applies the limit, and strips `_id`. -/
def Store.ofDb (db : List Doc) : Store :=
  ⟨fun q n => .ok (((db.filter q.matches).take n).map stripId)⟩

/-- A store whose discounted-products query raises (so the whole primary path
of `get_top_deals` fails), and whose remaining queries either work over `db`
or — when `fallbackFails` — also raise. -/
def Store.primaryFailing (db : List Doc) (fallbackFails : Bool) : Store :=
  ⟨fun q n =>
    match q with
    | .discounted => .error "connection reset"
    | _ => if fallbackFails then .error "connection reset" else (Store.ofDb db).find q n⟩

/-- `extract_discount` (src/main.py lines 86-93): read `disc_pct` with default
`"-0%"`, remove every `"-"` and `"%"` (Python `str.replace` replaces all
occurrences), and parse the rest as an unsigned integer, else 0.  A non-string
value makes `.replace` raise `AttributeError`, which the bare `except`
turns into 0. -/
def extract_discount (product : Doc) : Int :=
  let disc_pct := (fieldVal product "disc_pct").getD (BVal.str "-0%")
  match disc_pct with
  | BVal.str s =>
    let num_str := removeAll '%' (removeAll '-' s)
    if isDigits num_str then (digitsToNat num_str : Int) else 0
  | _ => 0

/-- The discount parser as the spec words it: strip one leading `"-"` and one
trailing `"%"`, then parse the remainder as an unsigned integer, else 0.
(Spec-described reference definition, to be compared with `extract_discount`.) -/
def specDiscount (s : String) : Int :=
  let s1 := match s.data with
    | '-' :: rest => String.mk rest
    | _ => s
  let s2 := if s1.data.getLast? == some '%' then String.mk s1.data.dropLast else s1
  if isDigits s2 then (digitsToNat s2 : Int) else 0

/-- Comparator of `products_with_discount.sort(key=extract_discount,
reverse=True)`: stable descending order by parsed discount. -/
def topDealsSortRel (a b : Doc) : Prop :=
  extract_discount b ≤ extract_discount a

instance : DecidableRel topDealsSortRel :=
  fun _ _ => Int.decLe _ _

/-- The pure selection step of the `try` block: guard `if
products_with_discount:`, stable sort by parsed discount descending
(`reverse=True`), slice `[:limit]`. -/
def topDealsSelect (products_with_discount : List Doc) (limit : Int) : List Doc :=
  if products_with_discount.isEmpty then []
  else (products_with_discount.insertionSort topDealsSortRel).take limit.toNat

/-- `existing_ids` (src/main.py line 105): the truthy `product_link` values of
the already-selected deals. -/
def topDealsExisting (top_deals : List Doc) : List BVal :=
  (top_deals.filterMap (fun p => fieldVal p "product_link")).filter BVal.truthy

/-- The `try` block of `get_top_deals` (src/main.py lines 75-114): fetch up to
`2*limit` discounted products, sort them by parsed discount descending, keep
`limit`, and if short, backfill with products whose `product_link` is not
among the truthy links already selected, finally truncating to `limit`. -/
def topDealsTry (st : Store) (limit : Int) : Except String (List Doc) := do
  let products_with_discount ← st.find .discounted (limit * 2).toNat
  let top_deals := topDealsSelect products_with_discount limit
  let top_deals ←
    if (top_deals.length : Int) < limit then do
      let remaining := limit - (top_deals.length : Int)
      let existing_ids := topDealsExisting top_deals
      let additional ←
        st.find (if existing_ids.isEmpty then TopQuery.all else TopQuery.linkNotIn existing_ids)
          remaining.toNat
      pure (top_deals ++ additional)
    else pure top_deals
  pure (top_deals.take limit.toNat)

/-- `get_top_deals` (src/main.py lines 66-120): a missing collection is an
explicit 500; a failing `try` block falls back to the first `limit` products
in collection order; a failing fallback surfaces as a 500 whose detail quotes
the primary error. -/
def get_top_deals (products_collection : Option Store) (limit : Int) : Outcome (List Doc) :=
  match products_collection with
  | none => .httpError 500 "Database connection not available"
  | some st =>
    match topDealsTry st limit with
    | .ok top_deals => .success top_deals
    | .error e =>
      match st.find .all limit.toNat with
      | .ok fallback => .success fallback
      | .error _ => .httpError 500 ("Error fetching top deals: " ++ e)

/-- The primary selection of the top-deals computation over a healthy store:
discounted products, sorted by parsed discount descending, first `limit`. -/
def topDealsPrimary (db : List Doc) (limit : Int) : List Doc :=
  topDealsSelect (((db.filter TopQuery.discounted.matches).take (limit * 2).toNat).map stripId)
    limit

/-- The truthy `product_link` values of the primary top-deals selection
(`existing_ids` in the source). -/
def topDealsIds (db : List Doc) (limit : Int) : List BVal :=
  topDealsExisting (topDealsPrimary db limit)

/-- The backfill of the top-deals computation over a healthy store: when the
primary selection is short, further products in collection order whose
`product_link` is not among the already-selected truthy links (no filter at
all when no selected link is truthy). -/
def topDealsBackfill (db : List Doc) (limit : Int) : List Doc :=
  let top_deals := topDealsPrimary db limit
  if (top_deals.length : Int) < limit then
    let remaining := limit - (top_deals.length : Int)
    let existing_ids := topDealsIds db limit
    ((db.filter
        (TopQuery.matches
          (if existing_ids.isEmpty then TopQuery.all else TopQuery.linkNotIn existing_ids))).take
      remaining.toNat).map stripId
  else []

/-! ## Product listing (`GET /api/products`, src/main.py lines 122-207) -/

/-- `PRIORITY_BRANDS` (src/main.py line 147). -/
def PRIORITY_BRANDS : List String :=
  ["Brunello Cucinelli", "Brioni", "Zimmermann"]

/-- The match query `get_products` builds (src/main.py lines 137-145): an
optional exact `brand_name` equality (only when `brand` is truthy) and an
optional `{"discount": {"$gte": int(min_discount)}}` bound (silently dropped
when `int(min_discount)` raises). -/
def buildQuery (brand : Option String) (min_discount : Option String) :
    Option String × Option Int :=
  let brandEq := if truthyOptStr brand then brand else none
  let discountGte :=
    match min_discount with
    | none => none
    | some s => if s == "" then none else pyToInt s
  (brandEq, discountGte)

/-- `$match` semantics of the built query against one document.  MongoDB's
`$gte` with a numeric operand is type-bracketed: it only matches numeric
values, so a missing, null or string `discount` never matches. -/
def docMatchesQuery (q : Option String × Option Int) (d : Doc) : Bool :=
  (match q.1 with
   | some b => fieldVal d "brand_name" == some (BVal.str b)
   | none => true)
  &&
  (match q.2 with
   | some n =>
     match fieldVal d "discount" with
     | some (BVal.int x) => decide (n ≤ x)
     | _ => false
   | none => true)

/-- The `$cond`/`$in` expression of the `$addFields` stage: bucket 0 for a
priority brand, bucket 1 otherwise (a missing or non-string `brand_name` is
not in the priority list). -/
def brandPriorityOf (d : Doc) : BVal :=
  match fieldVal d "brand_name" with
  | some (BVal.str b) => if PRIORITY_BRANDS.contains b then BVal.int 0 else BVal.int 1
  | _ => BVal.int 1

/-- The `$addFields` stage (src/main.py lines 155-170): with no truthy brand
filter, compute the priority bucket per document; with a brand filter, force
every document into bucket 1. -/
def addFieldsStage (brandFiltered : Bool) (d : Doc) : Doc :=
  if brandFiltered then setField d "brand_priority" (BVal.int 1)
  else setField d "brand_priority" (brandPriorityOf d)

/-- Sort key of one field value, embedding MongoDB's cross-type sort order
(null and missing sort together, below numbers, below strings) into a
lexicographic linear order.  Strings are keyed by their character lists,
compared lexicographically by codepoint — MongoDB's simple binary collation
on ASCII data. -/
abbrev SortKey := Nat ×ₗ Int ×ₗ List Char

/-- Key of an optional field value: rank 0 for missing/null, rank 1 with the
value for integers, rank 2 with the value for strings. -/
def bvKey : Option BVal → SortKey
  | none => toLex (0, toLex ((0 : Int), []))
  | some BVal.null => toLex (0, toLex ((0 : Int), []))
  | some (BVal.int i) => toLex (1, toLex (i, []))
  | some (BVal.str s) => toLex (2, toLex ((0 : Int), s.data))

/-- Sort key of a named field of a document. -/
def fieldKeyOf (f : String) (d : Doc) : SortKey :=
  bvKey (fieldVal d f)

/-- Comparator of a compound `$sort` document, given as (field, direction)
pairs with direction 1 for ascending and -1 for descending: the usual
lexicographic order of the per-field keys. -/
def sortLe : List (String × Int) → Doc → Doc → Bool
  | [], _, _ => true
  | (f, dir) :: rest, d, e =>
    (if dir = 1 then decide (fieldKeyOf f d < fieldKeyOf f e)
     else decide (fieldKeyOf f e < fieldKeyOf f d))
    || (decide (fieldKeyOf f d = fieldKeyOf f e) && sortLe rest d e)

/-- Python dict update `stage[k] = v` on an insertion-ordered (key, direction)
list: replace in place if the key exists, else append. -/
def dictSetInt (l : List (String × Int)) (k : String) (v : Int) : List (String × Int) :=
  if l.any (fun kv => kv.1 == k) then
    l.map (fun kv => if kv.1 == k then (k, v) else kv)
  else
    l ++ [(k, v)]

/-- The `$sort` document `get_products` builds (src/main.py lines 172-182):
`{"brand_priority": 1}`, then — when `sort_by` is truthy — the dict update
`sort_stage[sort_by] = order`.  When `sort_by` is the literal string
`"brand_priority"`, that update overwrites the priority key's direction. -/
def sortStageKeys (sort_by : Option String) (sort_order : String) : List (String × Int) :=
  let sort_stage := [("brand_priority", (1 : Int))]
  match sort_by with
  | some f =>
    if f != "" then dictSetInt sort_stage f (if sort_order == "asc" then 1 else -1)
    else sort_stage
  | none => sort_stage

/-- The sort keys contributed by the caller alone, without the priority
bucket (spec-described reference definition: "ordering is determined solely
by sort_by/sort_order"). -/
def sortByOnlyKeys (sort_by : Option String) (sort_order : String) : List (String × Int) :=
  match sort_by with
  | some f =>
    if f != "" then [(f, if sort_order == "asc" then 1 else -1)]
    else []
  | none => []

/-- The JSON body `get_products` returns on success (src/main.py lines
200-207). -/
structure ProductsResponse where
  products : List Doc
  total_products : Int
  limit : Int
  page : Int
  total_pages : Int
  has_more : Bool
deriving DecidableEq

/-- Body of `get_products` with the `$sort` document already built.  Mirrors
src/main.py lines 122-207: validate `page`, build the match query, run the
aggregation (match, `$addFields` of `brand_priority`, `$sort`, `$skip`,
`$limit`, `$project` without `_id`), count the matches, and assemble the
response.  With no collection, `count_documents` on `None` raises an
uncaught `AttributeError`; with `limit = 0`, `math.ceil(total / limit)`
raises an uncaught `ZeroDivisionError`. -/
def get_products_keys (products_collection : Option (List Doc)) (page limit : Int)
    (brand : Option String) (min_discount : Option String)
    (keys : List (String × Int)) : Outcome ProductsResponse :=
  if page < 1 then .httpError 400 "Page must be >= 1"
  else
    let skip := (page - 1) * limit
    let query := buildQuery brand min_discount
    match products_collection with
    | none => .unhandled "AttributeError: NoneType has no attribute count_documents"
    | some db =>
      let matching := db.filter (docMatchesQuery query)
      let total_products : Int := matching.length
      let withPriority := matching.map (addFieldsStage (truthyOptStr brand))
      let sorted := withPriority.insertionSort (fun d e => sortLe keys d e = true)
      let products := ((sorted.drop skip.toNat).take limit.toNat).map stripId
      if limit = 0 then .unhandled "ZeroDivisionError: division by zero"
      else
        .success
          { products := products
            total_products := total_products
            limit := limit
            page := page
            total_pages := pyCeil total_products limit
            has_more := decide (skip + limit < total_products) }

/-- `get_products` (src/main.py lines 122-207). -/
def get_products (products_collection : Option (List Doc)) (page limit : Int)
    (brand : Option String) (min_discount : Option String)
    (sort_by : Option String) (sort_order : String) : Outcome ProductsResponse :=
  get_products_keys products_collection page limit brand min_discount
    (sortStageKeys sort_by sort_order)

/-- A document whose `brand_name` is one of the priority brands. -/
def isPriorityDoc (d : Doc) : Bool :=
  match fieldVal d "brand_name" with
  | some (BVal.str b) => PRIORITY_BRANDS.contains b
  | _ => false

/-! ## Brands (`GET /api/brands`, src/main.py lines 288-300) -/

/-- `get_brands`: distinct `brand_name` values, or an explicit 500 when the
collection is missing. -/
def get_brands (products_collection : Option (List Doc)) : Outcome (List BVal) :=
  match products_collection with
  | none => .httpError 500 "Database connection not available"
  | some db => .success ((db.filterMap (fun d => fieldVal d "brand_name")).eraseDups)

/-! ## Contact intake (`POST /api/contact`, src/main.py lines 211-285) -/

/-- The mail environment `send_outlook_notification` reads: the two
credential variables and the outcome of the SMTP session (connect, starttls,
login, sendmail, quit) were it attempted. -/
structure MailEnv where
  user : Option String
  password : Option String
  smtpResult : Except String Unit

/-- `send_outlook_notification` (src/main.py lines 211-252): returns `False`
without sending when either credential is falsy; otherwise attempts the SMTP
session and returns `True` on success and `False` on any exception (every
failure is caught inside the function — it never raises). -/
def send_outlook_notification (env : MailEnv) (email message : String) : Bool :=
  if !truthyOptStr env.user || !truthyOptStr env.password then false
  else
    let _ := email
    let _ := message
    match env.smtpResult with
    | .ok _ => true
    | .error _ => false

/-- The validated contact-form body (`ContactForm`, src/main.py lines 56-58). -/
structure ContactForm where
  email : String
  message : String

/-- The JSON body `submit_contact_form` returns on success. -/
structure SubmitResponse where
  success : Bool
  message : String
  id : String
deriving DecidableEq

/-- `submit_contact_form` (src/main.py lines 255-285).  `messages_collection`
models the messages collection: `none` when the connection failed at startup,
otherwise the outcome of `insert_one` for this request (the generated id, or
the exception it raised).  The notification send is invoked and its boolean
result discarded; only the persistence outcome decides the response. -/
def submit_contact_form (messages_collection : Option (Except String String))
    (env : MailEnv) (contact : ContactForm) : Outcome SubmitResponse :=
  match messages_collection with
  | none => .httpError 500 "Database connection not available"
  | some insert_result =>
    match insert_result with
    | .ok inserted_id =>
      let _ := send_outlook_notification env contact.email contact.message
      .success
        { success := true
          message := "Thank you for contacting us! We'll get back to you soon."
          id := inserted_id }
    | .error e => .httpError 500 ("Error processing contact form: " ++ e)

/-! ## Single product lookup (`GET /api/products/(id)`) -/

/-- ASCII hexadecimal digit. -/
def isHexDigitCh (c : Char) : Bool :=
  c.isDigit || ('a' ≤ c && c ≤ 'f') || ('A' ≤ c && c ≤ 'F')

/-- A syntactically well-formed BSON ObjectId string: 24 hex characters. -/
def validObjectId (s : String) : Bool :=
  s.data.length == 24 && s.data.all isHexDigitCh

/-- Modelled from the spec: src/main.py contains no handler for
`GET /api/products/(id)` — only the spec's section 4.1 "Get single product"
describes it.  Following the spec's words: a missing store fails with a
service error; a malformed identifier fails with a validation/service error
(not a crash); a well-formed identifier matching no product fails with a
not-found error; otherwise the product is returned with the internal id
stripped. -/
def get_product_by_id (products_collection : Option (List Doc))
    (product_id : String) : Outcome Doc :=
  match products_collection with
  | none => .httpError 500 "Database connection not available"
  | some db =>
    if !validObjectId product_id then .httpError 400 "Invalid product id"
    else
      match db.find? (fun d => fieldVal d "_id" == some (BVal.str product_id)) with
      | some p => .success (stripId p)
      | none => .httpError 404 "Product not found"

/-! ## Helper lemmas about documents -/

theorem fieldVal_cons (kv : String × BVal) (t : Doc) (k : String) :
    fieldVal (kv :: t) k = if kv.1 == k then some kv.2 else fieldVal t k := by
  cases h : kv.1 == k <;> simp [fieldVal, List.find?, h]

theorem stripId_cons (kv : String × BVal) (t : Doc) :
    stripId (kv :: t) = if kv.1 != "_id" then kv :: stripId t else stripId t := by
  cases h : kv.1 != "_id" <;> simp [stripId, List.filter_cons, h]

theorem fieldVal_stripId (d : Doc) (k : String) (hk : k ≠ "_id") :
    fieldVal (stripId d) k = fieldVal d k := by
  induction d with
  | nil => rfl
  | cons kv t ih =>
    rw [stripId_cons, fieldVal_cons]
    by_cases h : kv.1 = k
    · have h1 : (kv.1 != "_id") = true := by
        simp only [bne_iff_ne, ne_eq]
        exact fun hcon => hk (h ▸ hcon)
      have h2 : (kv.1 == k) = true := by simpa using h
      simp [h1, fieldVal_cons, h2]
    · have h2 : (kv.1 == k) = false := by simpa using h
      by_cases h1 : (kv.1 != "_id") = true
      · simp [h1, fieldVal_cons, h2, ih]
      · simp [h1, h2, ih]


theorem fieldVal_stripId_id (d : Doc) : fieldVal (stripId d) "_id" = none := by
  induction d with
  | nil => rfl
  | cons kv t ih =>
    rw [stripId_cons]
    by_cases h1 : (kv.1 != "_id") = true
    · have h2 : (kv.1 == "_id") = false := by
        simp only [bne_iff_ne, ne_eq] at h1
        simpa using h1
      rw [if_pos h1, fieldVal_cons]
      simp only [h2, Bool.false_eq_true, if_false]
      exact ih
    · rw [if_neg h1]
      exact ih

theorem fieldVal_eq_none_of_not_any (d : Doc) (k : String)
    (h : d.any (fun kv => kv.1 == k) = false) : fieldVal d k = none := by
  induction d with
  | nil => rfl
  | cons kv t ih =>
    simp only [List.any_cons, Bool.or_eq_false_iff] at h
    rw [fieldVal_cons, h.1]
    simp only [Bool.false_eq_true, if_false]
    exact ih h.2

theorem fieldVal_append_of_none (d1 d2 : Doc) (k : String) (h : fieldVal d1 k = none) :
    fieldVal (d1 ++ d2) k = fieldVal d2 k := by
  induction d1 with
  | nil => rfl
  | cons kv t ih =>
    rw [List.cons_append, fieldVal_cons]
    rw [fieldVal_cons] at h
    cases hkv : kv.1 == k with
    | true => rw [hkv] at h; simp at h
    | false =>
      rw [hkv] at h
      simp only [Bool.false_eq_true, if_false] at h ⊢
      exact ih h

theorem fieldVal_append_single_other (d : Doc) (k : String) (v : BVal) (f : String)
    (hf : f ≠ k) : fieldVal (d ++ [(k, v)]) f = fieldVal d f := by
  induction d with
  | nil =>
    have hkf : (k == f) = false := by
      simp only [beq_eq_false_iff_ne, ne_eq]
      exact fun hc => hf hc.symm
    simp [fieldVal, List.find?, hkf]
  | cons kv t ih =>
    rw [List.cons_append, fieldVal_cons, fieldVal_cons]
    cases hkv : kv.1 == f with
    | true => simp [hkv]
    | false =>
      simp only [hkv, Bool.false_eq_true, if_false]
      exact ih

theorem fieldVal_map_setKey (d : Doc) (k : String) (v : BVal) :
    fieldVal (d.map (fun kv => if kv.1 == k then (k, v) else kv)) k =
      if d.any (fun kv => kv.1 == k) then some v else none := by
  induction d with
  | nil => rfl
  | cons kv t ih =>
    simp only [List.map_cons, List.any_cons]
    by_cases h : (kv.1 == k) = true
    · rw [if_pos h, fieldVal_cons]
      simp [h]
    · have hfalse : (kv.1 == k) = false := by
        simp only [Bool.not_eq_true] at h
        exact h
      rw [if_neg h, fieldVal_cons]
      simp only [hfalse, Bool.false_or, Bool.false_eq_true, if_false]
      exact ih

theorem fieldVal_map_setKey_other (d : Doc) (k : String) (v : BVal) (f : String)
    (hf : f ≠ k) :
    fieldVal (d.map (fun kv => if kv.1 == k then (k, v) else kv)) f = fieldVal d f := by
  induction d with
  | nil => rfl
  | cons kv t ih =>
    simp only [List.map_cons]
    by_cases h : (kv.1 == k) = true
    · have hkf : (k == f) = false := by
        simp only [beq_eq_false_iff_ne, ne_eq]
        exact fun hc => hf hc.symm
      have hkvf : (kv.1 == f) = false := by
        have hk : kv.1 = k := by simpa using h
        rw [hk]
        exact hkf
      rw [if_pos h, fieldVal_cons, fieldVal_cons, hkf, hkvf]
      simp only [Bool.false_eq_true, if_false]
      exact ih
    · rw [if_neg h, fieldVal_cons, fieldVal_cons]
      by_cases hkvf : (kv.1 == f) = true
      · simp only [hkvf, if_true]
      · have hkvf2 : (kv.1 == f) = false := by
          simp only [Bool.not_eq_true] at hkvf
          exact hkvf
        simp only [hkvf2, Bool.false_eq_true, if_false]
        exact ih

theorem fieldVal_setField_self (d : Doc) (k : String) (v : BVal) :
    fieldVal (setField d k v) k = some v := by
  unfold setField
  by_cases h : d.any (fun kv => kv.1 == k) = true
  · rw [if_pos h, fieldVal_map_setKey, if_pos h]
  · have hfalse : d.any (fun kv => kv.1 == k) = false := by
      simp only [Bool.not_eq_true] at h
      exact h
    rw [if_neg h, fieldVal_append_of_none _ _ _ (fieldVal_eq_none_of_not_any d k hfalse)]
    simp [fieldVal, List.find?]

theorem fieldVal_setField_other (d : Doc) (k : String) (v : BVal) (f : String)
    (hf : f ≠ k) : fieldVal (setField d k v) f = fieldVal d f := by
  unfold setField
  by_cases h : d.any (fun kv => kv.1 == k) = true
  · rw [if_pos h, fieldVal_map_setKey_other d k v f hf]
  · rw [if_neg h, fieldVal_append_single_other d k v f hf]

/-! ## Helper lemmas about the `$addFields` and `$sort` stages -/

theorem fieldVal_addFieldsStage_bp (b : Bool) (d : Doc) :
    fieldVal (addFieldsStage b d) "brand_priority" =
      some (if b then BVal.int 1 else brandPriorityOf d) := by
  cases b <;> simp [addFieldsStage, fieldVal_setField_self]

theorem fieldVal_addFieldsStage_other (b : Bool) (d : Doc) (f : String)
    (hf : f ≠ "brand_priority") :
    fieldVal (addFieldsStage b d) f = fieldVal d f := by
  cases b <;> simp [addFieldsStage, fieldVal_setField_other _ _ _ _ hf]

theorem brandPriorityOf_eq_zero_iff (d : Doc) :
    brandPriorityOf d = BVal.int 0 ↔ isPriorityDoc d = true := by
  unfold brandPriorityOf isPriorityDoc
  cases hv : fieldVal d "brand_name" with
  | none => simp
  | some v =>
    cases v with
    | null => simp
    | int i => simp
    | str s =>
      by_cases hb : PRIORITY_BRANDS.contains s = true
      · have hb2 : s ∈ PRIORITY_BRANDS := by simpa using hb
        simp [hb, hb2]
      · have hb2 : s ∉ PRIORITY_BRANDS := by simpa using hb
        simp [hb, hb2]

theorem brandPriorityOf_cases (d : Doc) :
    brandPriorityOf d = BVal.int 0 ∨ brandPriorityOf d = BVal.int 1 := by
  unfold brandPriorityOf
  cases fieldVal d "brand_name" with
  | none => exact Or.inr rfl
  | some v =>
    cases v with
    | null => exact Or.inr rfl
    | int i => exact Or.inr rfl
    | str s =>
      by_cases hb : PRIORITY_BRANDS.contains s = true
      · have hb2 : s ∈ PRIORITY_BRANDS := by simpa using hb
        exact Or.inl (by simp [hb, hb2])
      · have hb2 : s ∉ PRIORITY_BRANDS := by simpa using hb
        exact Or.inr (by simp [hb, hb2])

theorem lexStep_trans {u v w : SortKey} {p q r : Bool}
    (ih : p = true → q = true → r = true) :
    (decide (u < v) || (decide (u = v) && p)) = true →
    (decide (v < w) || (decide (v = w) && q)) = true →
    (decide (u < w) || (decide (u = w) && r)) = true := by
  simp only [Bool.or_eq_true, Bool.and_eq_true, decide_eq_true_eq]
  rintro (h1 | ⟨h1, hp⟩) (h2 | ⟨h2, hq⟩)
  · exact Or.inl (lt_trans h1 h2)
  · exact Or.inl (by rw [← h2]; exact h1)
  · exact Or.inl (by rw [h1]; exact h2)
  · exact Or.inr ⟨h1.trans h2, ih hp hq⟩

theorem lexStepFlip_trans {ka kb kc : SortKey} {p q r : Bool}
    (ih : p = true → q = true → r = true) :
    (decide (kb < ka) || (decide (ka = kb) && p)) = true →
    (decide (kc < kb) || (decide (kb = kc) && q)) = true →
    (decide (kc < ka) || (decide (ka = kc) && r)) = true := by
  simp only [Bool.or_eq_true, Bool.and_eq_true, decide_eq_true_eq]
  rintro (h1 | ⟨h1, hp⟩) (h2 | ⟨h2, hq⟩)
  · exact Or.inl (lt_trans h2 h1)
  · exact Or.inl (by rw [← h2]; exact h1)
  · exact Or.inl (by rw [h1]; exact h2)
  · exact Or.inr ⟨h1.trans h2, ih hp hq⟩

theorem sortLe_trans (keys : List (String × Int)) :
    ∀ {a b c : Doc}, sortLe keys a b = true → sortLe keys b c = true →
      sortLe keys a c = true := by
  induction keys with
  | nil => intro a b c h1 h2; rfl
  | cons kd rest ih =>
    obtain ⟨f, dir⟩ := kd
    intro a b c h1 h2
    by_cases hdir : dir = 1
    · simp only [sortLe] at h1 h2 ⊢
      rw [if_pos hdir] at h1 h2 ⊢
      exact lexStep_trans (fun hp hq => ih hp hq) h1 h2
    · simp only [sortLe] at h1 h2 ⊢
      rw [if_neg hdir] at h1 h2 ⊢
      exact lexStepFlip_trans (fun hp hq => ih hp hq) h1 h2

theorem lexStep_total {u v : SortKey} {p q : Bool} (ih : p = true ∨ q = true) :
    (decide (u < v) || (decide (u = v) && p)) = true ∨
    (decide (v < u) || (decide (v = u) && q)) = true := by
  simp only [Bool.or_eq_true, Bool.and_eq_true, decide_eq_true_eq]
  rcases lt_trichotomy u v with h | h | h
  · exact Or.inl (Or.inl h)
  · rcases ih with hp | hq
    · exact Or.inl (Or.inr ⟨h, hp⟩)
    · exact Or.inr (Or.inr ⟨h.symm, hq⟩)
  · exact Or.inr (Or.inl h)

theorem lexStepFlip_total {ka kb : SortKey} {p q : Bool} (ih : p = true ∨ q = true) :
    (decide (kb < ka) || (decide (ka = kb) && p)) = true ∨
    (decide (ka < kb) || (decide (kb = ka) && q)) = true := by
  simp only [Bool.or_eq_true, Bool.and_eq_true, decide_eq_true_eq]
  rcases lt_trichotomy ka kb with h | h | h
  · exact Or.inr (Or.inl h)
  · rcases ih with hp | hq
    · exact Or.inl (Or.inr ⟨h, hp⟩)
    · exact Or.inr (Or.inr ⟨h.symm, hq⟩)
  · exact Or.inl (Or.inl h)

theorem sortLe_total (keys : List (String × Int)) (a b : Doc) :
    sortLe keys a b = true ∨ sortLe keys b a = true := by
  induction keys with
  | nil => exact Or.inl rfl
  | cons kd rest ih =>
    obtain ⟨f, dir⟩ := kd
    by_cases hdir : dir = 1
    · simp only [sortLe]
      rw [if_pos hdir, if_pos hdir]
      exact lexStep_total ih
    · simp only [sortLe]
      rw [if_neg hdir, if_neg hdir]
      exact lexStepFlip_total ih

theorem sortLe_cons_of_eq {f : String} {dir : Int} {rest : List (String × Int)}
    {d e : Doc} (h : fieldKeyOf f d = fieldKeyOf f e) :
    sortLe ((f, dir) :: rest) d e = sortLe rest d e := by
  simp only [sortLe, h, ite_self]
  simp

theorem insertionSort_congr {α : Type} {r s : α → α → Prop}
    [DecidableRel r] [DecidableRel s] {l : List α}
    (h : ∀ a ∈ l, ∀ b ∈ l, r a b ↔ s a b) :
    l.insertionSort r = l.insertionSort s := by
  have hmap := List.map_insertionSort r s id l (by simpa using h)
  simpa using hmap

/-! ## Claim C1: pagination bounds of GET /api/products -/

/-- Claim C1: for every products-listing request with `page ≥ 1` and
`limit > 0` against an available store, `get_products` succeeds, returns at
most `limit` products, and its `has_more` flag is true exactly when
`(page-1)*limit + limit` is strictly below `total_products`, the
pre-pagination count of documents matching the filter. -/
theorem get_products_pagination_ok (db : List Doc) (page limit : Int)
    (brand min_discount sort_by : Option String) (sort_order : String)
    (hpage : 1 ≤ page) (hlimit : 0 < limit) :
    ∃ resp : ProductsResponse,
      get_products (some db) page limit brand min_discount sort_by sort_order =
        .success resp ∧
      (resp.products.length : Int) ≤ limit ∧
      (resp.has_more = true ↔ (page - 1) * limit + limit < resp.total_products) ∧
      resp.total_products =
        ((db.filter (docMatchesQuery (buildQuery brand min_discount))).length : Int) := by
  simp only [get_products, get_products_keys]
  rw [if_neg (show ¬page < 1 by omega), if_neg (show ¬limit = 0 by omega)]
  refine ⟨_, rfl, ?_, ?_, rfl⟩
  · simp only [List.length_map, List.length_take]
    refine le_trans ?_ (le_of_eq (Int.toNat_of_nonneg (by omega)))
    exact_mod_cast min_le_left _ _
  · simp

/-- Witness for claim C1: a two-product store, `page = 1`, `limit = 1`. -/
theorem get_products_pagination_ok_w :
    ∃ resp : ProductsResponse,
      get_products (some [[("brand_name", BVal.str "Brioni")],
          [("brand_name", BVal.str "Acne")]]) 1 1 none none none "asc" =
        .success resp ∧
      (resp.products.length : Int) ≤ 1 ∧
      (resp.has_more = true ↔ (1 - 1) * 1 + 1 < resp.total_products) ∧
      resp.total_products =
        (([[("brand_name", BVal.str "Brioni")],
            [("brand_name", BVal.str "Acne")]].filter
            (docMatchesQuery (buildQuery none none))).length : Int) :=
  get_products_pagination_ok _ 1 1 none none none "asc" (by decide) (by decide)

/-! ## Claim C10: limit = 0 crashes instead of a validation error -/

/-- Claim C10: a products-listing request with `page ≥ 1` and `limit = 0` is
not rejected with a validation error; the handler reaches the
`total_pages = ceil(total_products / limit)` computation, whose division by
zero makes the request fail with an uncaught `ZeroDivisionError` (a framework
500), not a 400 validation response. -/
theorem get_products_zero_limit (db : List Doc) (page : Int)
    (brand min_discount sort_by : Option String) (sort_order : String)
    (hpage : 1 ≤ page) :
    get_products (some db) page 0 brand min_discount sort_by sort_order =
      .unhandled "ZeroDivisionError: division by zero" ∧
    (get_products (some db) page 0 brand min_discount sort_by sort_order).statusOf ≠ 400 := by
  have h : get_products (some db) page 0 brand min_discount sort_by sort_order =
      .unhandled "ZeroDivisionError: division by zero" := by
    simp only [get_products, get_products_keys]
    rw [if_neg (show ¬page < 1 by omega)]
    simp
  exact ⟨h, by rw [h]; decide⟩

/-- Witness for claim C10: `page = 1`, `limit = 0` on a one-product store. -/
theorem get_products_zero_limit_w :
    get_products (some [[("brand_name", BVal.str "Brioni")]]) 1 0 none none none "asc" =
      .unhandled "ZeroDivisionError: division by zero" ∧
    (get_products (some [[("brand_name", BVal.str "Brioni")]]) 1 0 none none none
        "asc").statusOf ≠ 400 :=
  get_products_zero_limit _ 1 none none none "asc" (by decide)

/-! ## Claim C8: behaviour with the store unavailable -/

/-- Claim C8 counterexample: with the store unavailable, a products-listing
request with `page = 0` fails with the 400 validation error — not with a
500 service error — so "store unavailability fails with a 500 for every
operation of the component" is false as stated. -/
theorem store_unavailable_cex :
    (get_products none 0 100 none none none "asc").statusOf = 400 ∧
    (get_products none 0 100 none none none "asc").statusOf ≠ 500 := by
  constructor <;> decide

/-- Claim C8 (amended): with the store unavailable or unconfigured, every
Catalog Query operation that passes its input validation fails with HTTP
status 500: top deals and brands unconditionally, list products for every
request with `page ≥ 1` (a `page < 1` request is rejected by the 400
validation error first). -/
theorem store_unavailable_amended :
    (∀ limit : Int, (get_top_deals none limit).statusOf = 500) ∧
    (∀ (page limit : Int) (brand min_discount sort_by : Option String)
        (sort_order : String), 1 ≤ page →
      (get_products none page limit brand min_discount sort_by sort_order).statusOf = 500) ∧
    (get_brands none).statusOf = 500 := by
  refine ⟨fun _ => rfl, ?_, rfl⟩
  intro page limit brand min_discount sort_by sort_order hpage
  simp only [get_products, get_products_keys]
  rw [if_neg (show ¬page < 1 by omega)]
  rfl

/-- Witness for claim C8 (amended): `page = 1` on the unavailable store. -/
theorem store_unavailable_amended_w :
    (get_products none 1 100 none none none "asc").statusOf = 500 :=
  store_unavailable_amended.2.1 1 100 none none none "asc" (by decide)

/-! ## Claim C7: mail failure never affects the contact response -/

/-- Claim C7: a contact submission whose persistence succeeds returns the
success acknowledgment carrying the generated identifier for every mail
environment — including those with missing credentials or a failing SMTP
session — and a submission whose persistence fails returns the 500 service
error; the outcome is determined solely by the persistence step. -/
theorem submit_contact_mail_independent :
    (∀ (env : MailEnv) (contact : ContactForm) (inserted_id : String),
      submit_contact_form (some (.ok inserted_id)) env contact =
        .success
          { success := true
            message := "Thank you for contacting us! We'll get back to you soon."
            id := inserted_id }) ∧
    (∀ (env : MailEnv) (contact : ContactForm) (e : String),
      submit_contact_form (some (.error e)) env contact =
        .httpError 500 ("Error processing contact form: " ++ e)) :=
  ⟨fun _ _ _ => rfl, fun _ _ _ => rfl⟩

/-! ## Claim C9: single-product lookup (spec-modelled) -/

/-- Claim C9 (spec-modelled, the handler is absent from src/main.py):
single-product lookup fails with a 404 when no product carries the requested
identifier, fails with a client-side validation error — not a crash — when
the identifier is malformed, and on success returns the product with the
internal `_id` stripped. -/
theorem get_product_by_id_spec :
    (∀ (db : List Doc) (pid : String), validObjectId pid = true →
      (∀ d ∈ db, fieldVal d "_id" ≠ some (BVal.str pid)) →
      get_product_by_id (some db) pid = .httpError 404 "Product not found") ∧
    (∀ (db : List Doc) (pid : String), validObjectId pid = false →
      get_product_by_id (some db) pid = .httpError 400 "Invalid product id") ∧
    (∀ (db : List Doc) (pid : String) (p : Doc),
      get_product_by_id (some db) pid = .success p → fieldVal p "_id" = none) := by
  refine ⟨?_, ?_, ?_⟩
  · intro db pid hvalid hnone
    simp only [get_product_by_id]
    rw [if_neg (by simp [hvalid])]
    have hfind : db.find? (fun d => fieldVal d "_id" == some (BVal.str pid)) = none := by
      rw [List.find?_eq_none]
      intro d hd
      simpa using hnone d hd
    rw [hfind]
  · intro db pid hvalid
    simp only [get_product_by_id]
    rw [if_pos (by simp [hvalid])]
  · intro db pid p h
    simp only [get_product_by_id] at h
    by_cases hv : validObjectId pid = true
    · rw [if_neg (by simp [hv])] at h
      cases hfind : db.find? (fun d => fieldVal d "_id" == some (BVal.str pid)) with
      | none => rw [hfind] at h; simp at h
      | some d =>
        rw [hfind] at h
        simp only [Outcome.success.injEq] at h
        rw [← h]
        exact fieldVal_stripId_id d
    · rw [if_pos (by simp [Bool.not_eq_true] at hv; simp [hv])] at h
      simp at h

/-- Witness for claim C9: a malformed-id lookup and a nonexistent-id lookup
against a one-product store. -/
theorem get_product_by_id_spec_w :
    get_product_by_id (some [[("_id", BVal.str "aaaaaaaaaaaaaaaaaaaaaaaa")]])
      "bbbbbbbbbbbbbbbbbbbbbbbb" = .httpError 404 "Product not found" :=
  get_product_by_id_spec.1 _ _ (by decide) (by decide)

/-! ## Claim C4: the discount parser -/

/-- Claim C4 counterexample: on `disc_pct = "5-0%"` the claim's parse —
strip one leading `"-"` and one trailing `"%"`, then require an unsigned
integer — yields 0, but `extract_discount` removes every `"-"` and `"%"`
character and returns 50. -/
theorem extract_discount_cex :
    extract_discount [("disc_pct", BVal.str "5-0%")] = 50 ∧
    specDiscount "5-0%" = 0 ∧
    extract_discount [("disc_pct", BVal.str "5-0%")] ≠ specDiscount "5-0%" := by
  refine ⟨?_, ?_, ?_⟩ <;> decide

/-- Claim C4 (amended): for every value of `disc_pct` the parser returns a
definite non-negative integer and never raises: `"-50%"` parses to 50, an
empty or missing `disc_pct` parses to 0, and any string that is not an
unsigned integer after removing every `"-"` and `"%"` character parses
to 0. -/
theorem extract_discount_amended :
    (∀ d : Doc, 0 ≤ extract_discount d) ∧
    extract_discount [("disc_pct", BVal.str "-50%")] = 50 ∧
    extract_discount [("disc_pct", BVal.str "")] = 0 ∧
    extract_discount [] = 0 ∧
    (∀ s : String, isDigits (removeAll '%' (removeAll '-' s)) = false →
      extract_discount [("disc_pct", BVal.str s)] = 0) := by
  refine ⟨?_, by decide, by decide, by decide, ?_⟩
  · intro d
    unfold extract_discount
    cases hv : (fieldVal d "disc_pct").getD (BVal.str "-0%") with
    | null => simp
    | int i => simp
    | str s =>
      dsimp only
      split
      · exact Int.natCast_nonneg _
      · exact le_rfl
  · intro s h
    unfold extract_discount
    simp [fieldVal, List.find?, h]

/-- Witness for claim C4 (amended): `"abc%"` parses to 0. -/
theorem extract_discount_amended_w :
    extract_discount [("disc_pct", BVal.str "abc%")] = 0 :=
  extract_discount_amended.2.2.2.2 "abc%" (by decide)

/-! ## Helper lemmas for the top-deals path -/

theorem except_bind_ok {ε α β : Type} (a : α) (f : α → Except ε β) :
    (Except.ok a : Except ε α) >>= f = f a := rfl

theorem except_bind_error {ε α β : Type} (e : ε) (f : α → Except ε β) :
    (Except.error e : Except ε α) >>= f = .error e := rfl

theorem except_pure_eq {ε α : Type} (a : α) :
    (pure a : Except ε α) = .ok a := rfl

theorem ofDb_find (db : List Doc) (q : TopQuery) (n : Nat) :
    (Store.ofDb db).find q n = .ok (((db.filter q.matches).take n).map stripId) := rfl

theorem filter_matches_all (db : List Doc) : db.filter TopQuery.all.matches = db := by
  induction db with
  | nil => rfl
  | cons d t ih => simp [List.filter_cons, TopQuery.matches, ih]

theorem topDealsTry_ofDb (db : List Doc) (limit : Int) :
    topDealsTry (Store.ofDb db) limit =
      .ok ((topDealsPrimary db limit ++ topDealsBackfill db limit).take limit.toNat) := by
  unfold topDealsTry topDealsBackfill topDealsIds
  simp only [ofDb_find, except_bind_ok]
  rw [show topDealsSelect (((db.filter TopQuery.discounted.matches).take
        (limit * 2).toNat).map stripId) limit = topDealsPrimary db limit from rfl]
  split_ifs with h h2
  · rfl
  · rfl
  · rw [List.append_nil]
    rfl

/-! ## Claim C6: top-deals fallback behaviour -/

/-- Claim C6: whenever the primary top-deals path fails, `get_top_deals`
makes exactly one fallback query — the first `limit` products in
store-default order, with no discount ranking — and fails with the 500
service error only when that fallback also fails.  Stated generally over any
store whose `try` block errors, and concretely for a store whose discounted
query raises: with a working fallback the response is `db.take limit` (ids
stripped, unranked); with a failing fallback it is the 500 error quoting the
primary failure. -/
theorem top_deals_fallback_ok :
    (∀ (st : Store) (limit : Int) (e : String), topDealsTry st limit = .error e →
      get_top_deals (some st) limit =
        match st.find .all limit.toNat with
        | .ok fallback => .success fallback
        | .error _ => .httpError 500 ("Error fetching top deals: " ++ e)) ∧
    (∀ (db : List Doc) (limit : Int),
      get_top_deals (some (Store.primaryFailing db false)) limit =
        .success ((db.take limit.toNat).map stripId)) ∧
    (∀ (db : List Doc) (limit : Int),
      get_top_deals (some (Store.primaryFailing db true)) limit =
        .httpError 500 "Error fetching top deals: connection reset") := by
  have herr : ∀ (db : List Doc) (b : Bool) (limit : Int),
      topDealsTry (Store.primaryFailing db b) limit = .error "connection reset" := by
    intro db b limit
    rfl
  refine ⟨?_, ?_, ?_⟩
  · intro st limit e he
    simp only [get_top_deals, he]
  · intro db limit
    simp only [get_top_deals, herr db false limit]
    have hfind : (Store.primaryFailing db false).find .all limit.toNat =
        .ok ((db.take limit.toNat).map stripId) := by
      simp only [Store.primaryFailing, Store.ofDb, Bool.false_eq_true, if_false,
        filter_matches_all]
    simp only [hfind]
  · intro db limit
    simp only [get_top_deals, herr db true limit]
    rfl

/-- Witness for claim C6: a one-product store whose primary path fails. -/
theorem top_deals_fallback_ok_w :
    get_top_deals (some (Store.primaryFailing [[("brand_name", BVal.str "Brioni")]] false)) 1 =
      match (Store.primaryFailing [[("brand_name", BVal.str "Brioni")]] false).find .all
          (1 : Int).toNat with
      | .ok fallback => .success fallback
      | .error _ => .httpError 500 ("Error fetching top deals: " ++ "connection reset") :=
  top_deals_fallback_ok.1 _ 1 "connection reset" (by rfl)

/-! ## Claim C5: top-deals backfill deduplication -/

/-- Claim C5 counterexample: a store whose only discounted product has the
falsy `product_link` value `""`.  The handler collects only truthy links into
`existing_ids`, so `existing_ids = []`, the backfill query degenerates to no
filter at all, and the very same product is selected again: the returned
deals contain the product twice, and the backfill does repeat a
`product_link` already present in the primary selection. -/
theorem top_deals_backfill_cex :
    get_top_deals
        (some (Store.ofDb
          [[("disc_pct", BVal.str "-50%"), ("product_link", BVal.str "")],
           [("product_link", BVal.str "b")]])) 2 =
      .success
        [[("disc_pct", BVal.str "-50%"), ("product_link", BVal.str "")],
         [("disc_pct", BVal.str "-50%"), ("product_link", BVal.str "")]] ∧
    ¬(∀ q ∈ topDealsBackfill
          [[("disc_pct", BVal.str "-50%"), ("product_link", BVal.str "")],
           [("product_link", BVal.str "b")]] 2,
        ∀ p ∈ topDealsPrimary
          [[("disc_pct", BVal.str "-50%"), ("product_link", BVal.str "")],
           [("product_link", BVal.str "b")]] 2,
        fieldVal q "product_link" ≠ fieldVal p "product_link") := by
  constructor
  · decide
  · decide

/-- Claim C5 (amended): the top-deals response over a healthy store is the
primary selection followed by the backfill, truncated to `limit`; no backfill
product carries a truthy (present, non-null, non-empty) `product_link` equal
to a truthy `product_link` of a primary product — falsy links (`""`, null,
missing) are not deduplicated — and the backfill preserves the collection's
encounter order (it is a sublist of the projected collection). -/
theorem top_deals_backfill_amended (db : List Doc) (limit : Int) :
    get_top_deals (some (Store.ofDb db)) limit =
      .success ((topDealsPrimary db limit ++ topDealsBackfill db limit).take limit.toNat) ∧
    (∀ q ∈ topDealsBackfill db limit, ∀ p ∈ topDealsPrimary db limit,
      ∀ v : BVal, fieldVal p "product_link" = some v → v.truthy = true →
        fieldVal q "product_link" ≠ some v) ∧
    List.Sublist (topDealsBackfill db limit) (db.map stripId) := by
  refine ⟨?_, ?_, ?_⟩
  · simp only [get_top_deals, topDealsTry_ofDb]
  · intro q hq p hp v hpv htruthy hqv
    unfold topDealsBackfill at hq
    by_cases h : ((topDealsPrimary db limit).length : Int) < limit
    · rw [if_pos h] at hq
      dsimp only [] at hq
      have hv : v ∈ topDealsIds db limit := by
        unfold topDealsIds topDealsExisting
        exact List.mem_filter.mpr ⟨List.mem_filterMap.mpr ⟨p, hp, hpv⟩, htruthy⟩
      have hids : (topDealsIds db limit).isEmpty ≠ true := by
        intro hc
        rw [List.isEmpty_iff] at hc
        rw [hc] at hv
        exact List.not_mem_nil v hv
      rw [if_neg hids] at hq
      obtain ⟨q0, hq0mem, hq0⟩ := List.mem_map.mp hq
      have hq0f := List.mem_of_mem_take hq0mem
      have hmatch := (List.mem_filter.mp hq0f).2
      rw [← hq0, fieldVal_stripId q0 _ (by decide)] at hqv
      unfold TopQuery.matches at hmatch
      dsimp only [] at hmatch
      rw [hqv] at hmatch
      simp at hmatch
      exact hmatch hv
    · rw [if_neg h] at hq
      exact List.not_mem_nil q hq
  · unfold topDealsBackfill
    by_cases h : ((topDealsPrimary db limit).length : Int) < limit
    · rw [if_pos h]
      exact ((List.take_sublist _ _).trans (List.filter_sublist _)).map stripId
    · rw [if_neg h]
      exact List.nil_sublist _

/-- Witness for claim C5 (amended): a backfilled store where the primary
product's truthy link `"a"` is indeed excluded from the backfill. -/
theorem top_deals_backfill_amended_w :
    fieldVal [("product_link", BVal.str "b")] "product_link" ≠ some (BVal.str "a") :=
  (top_deals_backfill_amended
      [[("disc_pct", BVal.str "-10%"), ("product_link", BVal.str "a")],
       [("product_link", BVal.str "b")]] 2).2.1
    [("product_link", BVal.str "b")] (by decide)
    [("disc_pct", BVal.str "-10%"), ("product_link", BVal.str "a")] (by decide)
    (BVal.str "a") (by decide) (by decide)

/-! ## Claim C3: brand filter forces a single priority bucket -/

theorem dictSetInt_base_self (v : Int) :
    dictSetInt [("brand_priority", 1)] "brand_priority" v = [("brand_priority", v)] := by
  simp [dictSetInt]

theorem dictSetInt_base_other (f : String) (v : Int) (hf : ¬f = "brand_priority") :
    dictSetInt [("brand_priority", 1)] f v = [("brand_priority", 1), (f, v)] := by
  have h : (("brand_priority" : String) == f) = false := by
    simp only [beq_eq_false_iff_ne, ne_eq]
    exact fun hc => hf hc.symm
  simp [dictSetInt, h]

theorem get_products_keys_eq_of_sort_eq (pc : Option (List Doc)) (page limit : Int)
    (brand min_discount : Option String) (keys1 keys2 : List (String × Int))
    (h : ∀ db : List Doc, pc = some db →
      ((db.filter (docMatchesQuery (buildQuery brand min_discount))).map
          (addFieldsStage (truthyOptStr brand))).insertionSort
        (fun d e => sortLe keys1 d e = true) =
      ((db.filter (docMatchesQuery (buildQuery brand min_discount))).map
          (addFieldsStage (truthyOptStr brand))).insertionSort
        (fun d e => sortLe keys2 d e = true)) :
    get_products_keys pc page limit brand min_discount keys1 =
      get_products_keys pc page limit brand min_discount keys2 := by
  unfold get_products_keys
  by_cases hpage : page < 1
  · rw [if_pos hpage, if_pos hpage]
  · rw [if_neg hpage, if_neg hpage]
    cases pc with
    | none => rfl
    | some db =>
      dsimp only []
      rw [h db rfl]

/-- Claim C3: with a (truthy) brand filter applied, every matching row is
assigned `brand_priority` bucket 1, and the priority-bucket sort stage has no
effect on the result: the response equals the one computed with the sort keys
contributed by `sort_by`/`sort_order` alone (no keys at all when `sort_by` is
absent). -/
theorem brand_filter_priority_noop (db : List Doc) (page limit : Int)
    (brand min_discount sort_by : Option String) (sort_order : String)
    (hbrand : truthyOptStr brand = true) :
    (∀ d ∈ (db.filter (docMatchesQuery (buildQuery brand min_discount))).map
        (addFieldsStage (truthyOptStr brand)),
      fieldVal d "brand_priority" = some (BVal.int 1)) ∧
    get_products (some db) page limit brand min_discount sort_by sort_order =
      get_products_keys (some db) page limit brand min_discount
        (sortByOnlyKeys sort_by sort_order) := by
  have h1 : ∀ d ∈ (db.filter (docMatchesQuery (buildQuery brand min_discount))).map
      (addFieldsStage (truthyOptStr brand)),
      fieldVal d "brand_priority" = some (BVal.int 1) := by
    intro d hd
    obtain ⟨d0, hd0, rfl⟩ := List.mem_map.mp hd
    rw [hbrand, fieldVal_addFieldsStage_bp]
    simp
  refine ⟨h1, ?_⟩
  unfold get_products
  apply get_products_keys_eq_of_sort_eq
  intro db2 hdb2
  injection hdb2 with hdb2
  subst hdb2
  apply insertionSort_congr
  intro a ha b hb
  have hk : fieldKeyOf "brand_priority" a = fieldKeyOf "brand_priority" b := by
    unfold fieldKeyOf
    rw [h1 a ha, h1 b hb]
  have heq : sortLe (sortStageKeys sort_by sort_order) a b =
      sortLe (sortByOnlyKeys sort_by sort_order) a b := by
    cases sort_by with
    | none => exact sortLe_cons_of_eq hk
    | some f =>
      simp only [sortStageKeys, sortByOnlyKeys]
      by_cases hf : (f != "") = true
      · rw [if_pos hf, if_pos hf]
        by_cases hfbp : f = "brand_priority"
        · subst hfbp
          rw [dictSetInt_base_self]
        · rw [dictSetInt_base_other f _ hfbp]
          exact sortLe_cons_of_eq hk
      · rw [if_neg hf, if_neg hf]
        exact sortLe_cons_of_eq hk
  rw [heq]

/-- Witness for claim C3: a one-product store filtered to brand `"Brioni"`
with a descending price sort. -/
theorem brand_filter_priority_noop_w :
    (∀ d ∈ ([[("brand_name", BVal.str "Brioni"), ("price", BVal.int 10)]].filter
        (docMatchesQuery (buildQuery (some "Brioni") none))).map
        (addFieldsStage (truthyOptStr (some "Brioni"))),
      fieldVal d "brand_priority" = some (BVal.int 1)) ∧
    get_products (some [[("brand_name", BVal.str "Brioni"), ("price", BVal.int 10)]])
        1 5 (some "Brioni") none (some "price") "desc" =
      get_products_keys (some [[("brand_name", BVal.str "Brioni"), ("price", BVal.int 10)]])
        1 5 (some "Brioni") none (sortByOnlyKeys (some "price") "desc") :=
  brand_filter_priority_noop _ 1 5 (some "Brioni") none (some "price") "desc" (by decide)

/-! ## Claim C2: priority-bucket ordering without a brand filter -/

theorem sortStageKeys_head (sort_by : Option String) (sort_order : String)
    (h : sort_by = some "brand_priority" → sort_order = "asc") :
    ∃ rest, sortStageKeys sort_by sort_order = ("brand_priority", 1) :: rest := by
  cases sort_by with
  | none => exact ⟨[], rfl⟩
  | some f =>
    simp only [sortStageKeys]
    by_cases hf : (f != "") = true
    · rw [if_pos hf]
      by_cases hfbp : f = "brand_priority"
      · subst hfbp
        rw [h rfl]
        refine ⟨[], ?_⟩
        rw [show (if (("asc" : String) == "asc") = true then (1 : Int) else -1) = 1 from by decide]
        exact dictSetInt_base_self 1
      · exact ⟨[(f, if (sort_order == "asc") = true then 1 else -1)],
          dictSetInt_base_other f _ hfbp⟩
    · rw [if_neg hf]
      exact ⟨[], rfl⟩

theorem get_products_keys_success_products {db : List Doc} {page limit : Int}
    {brand min_discount : Option String} {keys : List (String × Int)}
    {resp : ProductsResponse}
    (h : get_products_keys (some db) page limit brand min_discount keys = .success resp) :
    resp.products =
      (((((db.filter (docMatchesQuery (buildQuery brand min_discount))).map
            (addFieldsStage (truthyOptStr brand))).insertionSort
          (fun d e => sortLe keys d e = true)).drop
          ((page - 1) * limit).toNat).take limit.toNat).map stripId := by
  unfold get_products_keys at h
  by_cases hpage : page < 1
  · rw [if_pos hpage] at h
    exact absurd h (by simp)
  · rw [if_neg hpage] at h
    dsimp only [] at h
    by_cases hlimit : limit = 0
    · rw [if_pos hlimit] at h
      exact absurd h (by simp)
    · rw [if_neg hlimit] at h
      simp only [Outcome.success.injEq] at h
      rw [← h]

/-- Claim C2 counterexample: with no brand filter but with
`sort_by=brand_priority&sort_order=desc`, the dict update
`sort_stage[sort_by] = order` overwrites the priority key's direction, so the
non-priority product (`XBrand`, bucket 1) is returned before the priority
product (`Brioni`, bucket 0) on the same page — the priority-bucket invariant
is false as stated. -/
theorem get_products_priority_cex :
    get_products
        (some [[("brand_name", BVal.str "XBrand")], [("brand_name", BVal.str "Brioni")]])
        1 100 none none (some "brand_priority") "desc" =
      .success
        { products := [[("brand_name", BVal.str "XBrand"), ("brand_priority", BVal.int 1)],
                       [("brand_name", BVal.str "Brioni"), ("brand_priority", BVal.int 0)]]
          total_products := 2
          limit := 100
          page := 1
          total_pages := 1
          has_more := false } ∧
    isPriorityDoc [("brand_name", BVal.str "XBrand"), ("brand_priority", BVal.int 1)] = false ∧
    isPriorityDoc [("brand_name", BVal.str "Brioni"), ("brand_priority", BVal.int 0)] = true := by
  refine ⟨?_, ?_, ?_⟩ <;> decide

/-- Claim C2 (amended): for every products-listing request with no (truthy)
brand filter that does not override the priority key — i.e. unless it sets
`sort_by` to the literal string `"brand_priority"` with a non-ascending
`sort_order` — every returned product whose brand is one of the priority
brands precedes, in result order, every returned product whose brand is not,
for products on the same page. -/
theorem get_products_priority_amended (db : List Doc) (page limit : Int)
    (brand min_discount sort_by : Option String) (sort_order : String)
    (resp : ProductsResponse)
    (hbrand : truthyOptStr brand = false)
    (hsb : sort_by = some "brand_priority" → sort_order = "asc")
    (hsucc : get_products (some db) page limit brand min_discount sort_by sort_order =
      .success resp) :
    ∀ i j : Nat, i < j → isPriorityDoc (resp.products.getD j []) = true →
      isPriorityDoc (resp.products.getD i []) = true := by
  intro i j hij hj
  unfold get_products at hsucc
  have hprod := get_products_keys_success_products hsucc
  by_cases hjlen : j < resp.products.length
  · have hilen : i < resp.products.length := lt_trans hij hjlen
    set wp := (db.filter (docMatchesQuery (buildQuery brand min_discount))).map
      (addFieldsStage (truthyOptStr brand)) with hwp
    set sorted := wp.insertionSort
      (fun d e => sortLe (sortStageKeys sort_by sort_order) d e = true) with hsorted
    set paged := (sorted.drop ((page - 1) * limit).toNat).take limit.toNat with hpaged
    rw [hprod, List.length_map] at hjlen hilen
    rw [hprod] at hj ⊢
    rw [List.getD_eq_getElem?_getD, List.getElem?_eq_getElem (by simpa using hjlen),
      Option.getD_some, List.getElem_map] at hj
    rw [List.getD_eq_getElem?_getD, List.getElem?_eq_getElem (by simpa using hilen),
      Option.getD_some, List.getElem_map]
    have hstrip : ∀ d : Doc, isPriorityDoc (stripId d) = isPriorityDoc d := by
      intro d
      unfold isPriorityDoc
      rw [fieldVal_stripId d _ (by decide)]
    rw [hstrip] at hj ⊢
    haveI hto : IsTotal Doc
        (fun d e => sortLe (sortStageKeys sort_by sort_order) d e = true) :=
      ⟨sortLe_total _⟩
    haveI htr : IsTrans Doc
        (fun d e => sortLe (sortStageKeys sort_by sort_order) d e = true) :=
      ⟨fun a b c => sortLe_trans _⟩
    have hs : List.Pairwise
        (fun d e => sortLe (sortStageKeys sort_by sort_order) d e = true) sorted := by
      rw [hsorted]
      exact List.sorted_insertionSort _ wp
    have hpair : List.Pairwise
        (fun d e => sortLe (sortStageKeys sort_by sort_order) d e = true) paged := by
      rw [hpaged]
      exact List.Pairwise.sublist ((List.take_sublist _ _).trans (List.drop_sublist _ _)) hs
    have hmem : ∀ (k : Nat), k < paged.length → ∀ (hk2 : k < paged.length),
        paged[k] ∈ wp := by
      intro k _ hk2
      have h1 : paged[k] ∈ paged := List.getElem_mem hk2
      have hsub : List.Sublist paged sorted := by
        rw [hpaged]
        exact (List.take_sublist _ _).trans (List.drop_sublist _ _)
      have h3 := hsub.subset h1
      rw [hsorted] at h3
      exact (List.mem_insertionSort _).mp h3
    have hwp_field : ∀ w ∈ wp,
        (fieldVal w "brand_priority" = some (BVal.int 0) ∨
          fieldVal w "brand_priority" = some (BVal.int 1)) ∧
        (fieldVal w "brand_priority" = some (BVal.int 0) ↔ isPriorityDoc w = true) := by
      intro w hw
      rw [hwp] at hw
      obtain ⟨w0, hw0, rfl⟩ := List.mem_map.mp hw
      have hbp2 : fieldVal (addFieldsStage (truthyOptStr brand) w0) "brand_priority" =
          some (brandPriorityOf w0) := by
        rw [hbrand, fieldVal_addFieldsStage_bp]
        simp
      have hbn : isPriorityDoc (addFieldsStage (truthyOptStr brand) w0) =
          isPriorityDoc w0 := by
        unfold isPriorityDoc
        rw [fieldVal_addFieldsStage_other _ _ _ (by decide)]
      refine ⟨?_, ?_⟩
      · rw [hbp2]
        rcases brandPriorityOf_cases w0 with h0 | h0
        · exact Or.inl (by rw [h0])
        · exact Or.inr (by rw [h0])
      · rw [hbp2, hbn]
        simp only [Option.some.injEq]
        exact brandPriorityOf_eq_zero_iff w0
    have hRij : sortLe (sortStageKeys sort_by sort_order) paged[i] paged[j] = true :=
      List.pairwise_iff_getElem.mp hpair i j hilen hjlen hij
    have hj0 : fieldVal paged[j] "brand_priority" = some (BVal.int 0) :=
      ((hwp_field _ (hmem j hjlen hjlen)).2).mpr hj
    rcases (hwp_field _ (hmem i hilen hilen)).1 with h0 | h1
    · exact ((hwp_field _ (hmem i hilen hilen)).2).mp h0
    · exfalso
      obtain ⟨rest, hkeys⟩ := sortStageKeys_head sort_by sort_order hsb
      rw [hkeys] at hRij
      have hka : fieldKeyOf "brand_priority" paged[i] = bvKey (some (BVal.int 1)) := by
        unfold fieldKeyOf
        rw [h1]
      have hkb : fieldKeyOf "brand_priority" paged[j] = bvKey (some (BVal.int 0)) := by
        unfold fieldKeyOf
        rw [hj0]
      simp only [sortLe, hka, hkb, if_true] at hRij
      rw [show decide (bvKey (some (BVal.int 1)) < bvKey (some (BVal.int 0))) = false
            from by decide,
        show decide (bvKey (some (BVal.int 1)) = bvKey (some (BVal.int 0))) = false
            from by decide] at hRij
      simp at hRij
  · rw [List.getD_eq_getElem?_getD, List.getElem?_eq_none (by omega)] at hj
    exact absurd hj (by decide)

/-- Witness for claim C2 (amended): two priority-brand products, no brand
filter, default sort; the product at index 1 is a priority brand, hence so is
the one at index 0. -/
theorem get_products_priority_amended_w :
    isPriorityDoc ((ProductsResponse.products
        { products := [[("brand_name", BVal.str "Brioni"), ("brand_priority", BVal.int 0)],
                       [("brand_name", BVal.str "Zimmermann"), ("brand_priority", BVal.int 0)]]
          total_products := 2
          limit := 10
          page := 1
          total_pages := 1
          has_more := false }).getD 0 []) = true :=
  get_products_priority_amended
    [[("brand_name", BVal.str "Brioni")], [("brand_name", BVal.str "Zimmermann")]]
    1 10 none none none "asc"
    { products := [[("brand_name", BVal.str "Brioni"), ("brand_priority", BVal.int 0)],
                   [("brand_name", BVal.str "Zimmermann"), ("brand_priority", BVal.int 0)]]
      total_products := 2
      limit := 10
      page := 1
      total_pages := 1
      has_more := false }
    (by decide) (by intro hc; exact absurd hc (by decide))
    (by decide) 0 1 (by decide) (by decide)
